import Mathlib

/-!
# Verification of the qTox ContentDialog contact-cycling controller

Shallow embedding of src/src/widget/contentdialog.cpp: the contact map
(contactWidgets), the three display groupings (online friends, groups,
offline friends), the active-contact tracking, and the operations
addFriend, addGroup, removeFriend, removeGroup, cycleContacts,
focusContact, updateFriendStatus, hasContact and the drag-enter
acceptance check.

Widgets are identified with their contact ids (ToxPk / GroupId raw
bytes, here a Nat); the GUI toolkit layout containers become ordered
lists of ids.  The layout-collaborator operations (FriendListLayout,
GenericChatItemLayout) are not part of the source file and are modelled
from the spec where noted.
-/

namespace ContentDialog

/-- The three display groupings of the dialog sidebar: the online-friends
layout and offline-friends layout of FriendListLayout, and the group
layout (GenericChatItemLayout). -/
inductive LayoutKind where
  | online : LayoutKind
  | groups : LayoutKind
  | offline : LayoutKind
deriving DecidableEq

/-- State of one ContentDialog: the three ordered groupings (lists of
contact ids standing for the chatroom widgets), the key set of the
contactWidgets hash (managed contact ids), the active chatroom widget
(activeChatroomWidget, none for nullptr), and the groupsOnTop
configuration flag (Settings::getGroupchatPosition, kept in sync with
the layouts ring by the groupchatPositionChanged connection). -/
structure DialogState where
  online : List Nat
  offline : List Nat
  groups : List Nat
  contactWidgets : List Nat
  active : Option Nat
  groupsOnTop : Bool
deriving DecidableEq

/-- Boolean list membership, mirroring QHash::contains / QLayout search. -/
def memB (x : Nat) : List Nat → Bool
  | [] => false
  | y :: ys => if y = x then true else memB x ys

/-- Position of an element in a list, none when absent; mirrors
QList::indexOf / QLayout::indexOf returning -1 for a missing element. -/
def findPos {α : Type} [DecidableEq α] (x : α) : List α → Option Nat
  | [] => none
  | y :: ys => if y = x then some 0 else (findPos x ys).map (fun n => n + 1)

/-- The list of widgets held by one grouping layout. -/
def layoutOf (s : DialogState) : LayoutKind → List Nat
  | .online => s.online
  | .groups => s.groups
  | .offline => s.offline

/-- The `layouts` ring: order of the three groupings.  The constructor
builds {online, groups, offline} and swaps the first two when
getGroupchatPosition() is set (groups on top); reorderLayouts keeps it
in sync with the setting. -/
def layouts (s : DialogState) : List LayoutKind :=
  if s.groupsOnTop then [.groups, .online, .offline] else [.online, .groups, .offline]

/-- ContentDialog::nextLayout: index of the current layout in the
`layouts` list, then `(index ± 1 + size) % size`.  The current layout is
always one of the three, so the indexOf lookup never fails (the source
would return nullptr in that case, which is unreachable from
cycleContacts). -/
def nextLayout (s : DialogState) (cur : LayoutKind) (forward : Bool) : LayoutKind :=
  let ring := layouts s
  let i := (findPos cur ring).getD 0
  let nxt := if forward then (i + 1) % 3 else (i + 2) % 3
  ring.getD nxt cur

/-- All widgets currently held by the three grouping layouts. -/
def allWidgets (s : DialogState) : List Nat :=
  s.online ++ s.offline ++ s.groups

/-- ContentDialog::getCurrentLayout: search the online layout, then the
offline layout, then the group layout for the active widget; return the
containing layout and the index, or none when there is no active widget
or it is in no layout (the source's index == -1 / layout == nullptr). -/
def getCurrentLayout (s : DialogState) : Option (LayoutKind × Nat) :=
  match s.active with
  | none => none
  | some a =>
    match findPos a s.online with
    | some i => some (.online, i)
    | none =>
      match findPos a s.offline with
      | some i => some (.offline, i)
      | none =>
        match findPos a s.groups with
        | some i => some (.groups, i)
        | none => none

/-- The `nextIsEmpty` expression of ContentDialog::cycleContacts
(lines 320-322), written per current-layout case: the three disjuncts
guarded by isCurOnline / isCurGroup / isCurOffline. -/
def nextIsEmpty (s : DialogState) (cur : LayoutKind) : Bool :=
  let offlineEmpty := s.offline.isEmpty
  let onlineEmpty := s.online.isEmpty
  let groupsEmpty := s.groups.isEmpty
  match cur with
  | .online => offlineEmpty && (groupsEmpty || s.groupsOnTop)
  | .groups => offlineEmpty && (onlineEmpty || !s.groupsOnTop)
  | .offline => true

/-- The direction-flip condition of cycleContacts: not inverse, active
widget at the last index of its layout, and nextIsEmpty. -/
def flipCond (inverse : Bool) (cur : LayoutKind) (idx : Nat) (s : DialogState) : Bool :=
  !inverse && (idx == (layoutOf s cur).length - 1) && nextIsEmpty s cur

/-- Whether a call of cycleContacts(forward, inverse) on state s flips
its traversal direction (the `forward = !forward` assignment). -/
def codeFlip (inverse : Bool) (s : DialogState) : Bool :=
  match getCurrentLayout s with
  | none => false
  | some (cur, idx) => flipCond inverse cur idx s

/-- The spec sentence's flip condition, stated as written: the active
contact is at the last position of its grouping and moving forward would
land on the boundary of a structurally empty grouping, i.e. the next
grouping in ring order is empty.  Used to compare the spec's wording
with the source's condition. -/
def claimFlip (inverse : Bool) (s : DialogState) : Bool :=
  match getCurrentLayout s with
  | none => false
  | some (cur, idx) =>
    !inverse && (idx == (layoutOf s cur).length - 1)
      && (layoutOf s (nextLayout s cur true)).isEmpty

/-- Index of a grouping in the `layouts` ring. -/
def ringIndex (s : DialogState) (cur : LayoutKind) : Nat :=
  (findPos cur (layouts s)).getD 0

/-- All groupings strictly after `cur` in the `layouts` ring order are
structurally empty (vacuously true for the last grouping of the ring). -/
def subsequentEmpty (s : DialogState) (cur : LayoutKind) : Bool :=
  ((layouts s).drop (ringIndex s cur + 1)).all (fun k => (layoutOf s k).isEmpty)

/-- The while loop of cycleContacts (lines 332-341): while the index is
outside the current layout, move to the next/previous layout and reset
the index to its last (when coming from below) or first (when coming
from above) entry.  The fuel bounds the iterations; 4 is enough because
the starting layout is non-empty, so after at most three layout switches
the index is back in range. -/
def cycleLoop (s : DialogState) (forward : Bool) :
    Nat → LayoutKind → Int → Option (LayoutKind × Nat)
  | 0, _, _ => none
  | fuel + 1, cur, index =>
    let cnt : Int := (layoutOf s cur).length
    if index < 0 ∨ index ≥ cnt then
      let oldCount : Int := cnt
      let nxt := nextLayout s cur forward
      let newCount : Int := (layoutOf s nxt).length
      let index2 : Int :=
        if index < 0 then newCount - 1
        else if index ≥ oldCount then 0
        else index
      cycleLoop s forward fuel nxt index2
    else
      some (cur, index.toNat)

/-- ContentDialog::activate: no-op when the widget is already the active
one, otherwise make it the active chatroom widget (the content-layout /
title / status-light updates are rendering effects out of scope). -/
def activate (w : Nat) (s : DialogState) : DialogState :=
  if s.active = some w then s else { s with active := some w }

/-- ContentDialog::cycleContacts: find the active widget's layout and
index; flip the direction when flipCond holds; step the index; run the
wrap/skip loop; activate the found widget when it differs from the
active one (via the chatroomWidgetClicked connection to activate). -/
def cycleContacts (forward inverse : Bool) (s : DialogState) : DialogState :=
  match getCurrentLayout s with
  | none => s
  | some (cur, idx) =>
    let fwd := if flipCond inverse cur idx s then !forward else forward
    let start : Int := (idx : Int) + (if fwd then 1 else -1)
    match cycleLoop s fwd 4 cur start with
    | none => s
    | some (cur2, i) =>
      match (layoutOf s cur2)[i]? with
      | none => s
      | some w => if s.active ≠ some w then activate w s else s

/-- Key-set effect of `contactWidgets[id] = widget`: QHash insertion
keeps the key set when the key is present (value replaced) and adds the
key otherwise. -/
def insertNew (x : Nat) (l : List Nat) : List Nat :=
  if memB x l then l else l ++ [x]

/-- Modelled from the spec: FriendListLayout::addFriendWidget (the
friend-list layout collaborator, not part of this source file) places a
friend widget in the grouping matching its status, removing it from the
other one; per spec section 4.1 the entry moves between the Online and
Offline groupings.  Insertion position inside the grouping is taken as
append. -/
def friendLayoutAddWidget (w : Nat) (isOnline : Bool) (s : DialogState) : DialogState :=
  let s1 := { s with online := s.online.erase w, offline := s.offline.erase w }
  if isOnline then { s1 with online := s1.online ++ [w] }
  else { s1 with offline := s1.offline ++ [w] }

/-- ContentDialog::addFriend: store the widget in contactWidgets, add it
to the friend layout for the friend's status, then the emitted
chatroomWidgetClicked activates it. -/
def addFriend (pk : Nat) (isOnline : Bool) (s : DialogState) : DialogState :=
  let s1 := { s with contactWidgets := insertNew pk s.contactWidgets }
  let s2 := friendLayoutAddWidget pk isOnline s1
  activate pk s2

/-- ContentDialog::addGroup: store the widget in contactWidgets, add it
to the group layout (addSortedWidget, modelled as append), then the
emitted chatroomWidgetClicked activates it. -/
def addGroup (gid : Nat) (s : DialogState) : DialogState :=
  let s1 := { s with contactWidgets := insertNew gid s.contactWidgets }
  let s2 := { s1 with groups := s1.groups ++ [gid] }
  activate gid s2

/-- ContentDialog::chatroomCount: friendTotalCount() of the friend
layout plus the group layout count. -/
def chatroomCount (s : DialogState) : Nat :=
  s.online.length + s.offline.length + s.groups.length

/-- ContentDialog::removeFriend: when the removed widget is the active
one, first pick a replacement via cycleContacts(true, false); remove the
widget from the offline and online layouts; when no chatrooms remain,
clear the active widget; drop the id from contactWidgets; the returned
flag is closeIfEmpty's close() firing (contactWidgets empty). -/
def removeFriend (pk : Nat) (s : DialogState) : DialogState × Bool :=
  let s1 := if s.active = some pk then cycleContacts true false s else s
  let s2 := { s1 with online := s1.online.erase pk, offline := s1.offline.erase pk }
  let s3 := if chatroomCount s2 = 0 then { s2 with active := none } else s2
  let s4 := { s3 with contactWidgets := s3.contactWidgets.erase pk }
  (s4, s4.contactWidgets.isEmpty)

/-- ContentDialog::removeGroup: same shape as removeFriend with the
widget removed from the group layout. -/
def removeGroup (gid : Nat) (s : DialogState) : DialogState × Bool :=
  let s1 := if s.active = some gid then cycleContacts true false s else s
  let s2 := { s1 with groups := s1.groups.erase gid }
  let s3 := if chatroomCount s2 = 0 then { s2 with active := none } else s2
  let s4 := { s3 with contactWidgets := s3.contactWidgets.erase gid }
  (s4, s4.contactWidgets.isEmpty)

/-- ContentDialog::hasContact: contactWidgets.contains(contactId). -/
def hasContact (id : Nat) (s : DialogState) : Bool :=
  memB id s.contactWidgets

/-- Acceptance decision of ContentDialog::dragEnterEvent for a dragged
contact: the directory lookup (FriendList::findFriend /
GroupList::findGroup, an external collaborator) must resolve the id, and
acceptProposedAction is called only when the dialog does not already
have the contact. -/
def dragEnterAccept (found : Bool) (id : Nat) (s : DialogState) : Bool :=
  found && !hasContact id s

/-- ContentDialog::focusContact via focusCommon: if the id is not a key
of contactWidgets, return without effect; otherwise activate its
widget. -/
def focusContact (id : Nat) (s : DialogState) : DialogState :=
  if memB id s.contactWidgets then activate id s else s

/-- ContentDialog::addFriendWidget(widget, status) target of
updateFriendStatus; a null widget (contactWidgets.value miss) is a
no-op.  Modelled from the spec: the layout collaborator's behaviour for
a null widget is not in this source file; spec section 7 fixes unknown
ids on status updates to be no-ops. -/
def addFriendWidgetOp (w : Option Nat) (isOnline : Bool) (s : DialogState) : DialogState :=
  match w with
  | none => s
  | some pk => friendLayoutAddWidget pk isOnline s

/-- ContentDialog::updateFriendStatus: look the widget up with
contactWidgets.value (null for a missing key) and hand it to
addFriendWidget. -/
def updateFriendStatus (pk : Nat) (isOnline : Bool) (s : DialogState) : DialogState :=
  addFriendWidgetOp (if memB pk s.contactWidgets then some pk else none) isOnline s

/-- Controller well-formedness (spec section 3 invariant): each contact
id appears in exactly one grouping position, the groupings hold exactly
the managed contacts, and the active contact, when set, is in some
grouping. -/
def WF (s : DialogState) : Prop :=
  (allWidgets s).Nodup ∧ s.contactWidgets.Nodup ∧
  (∀ x ∈ allWidgets s, x ∈ s.contactWidgets) ∧
  (∀ x ∈ s.contactWidgets, x ∈ allWidgets s) ∧
  (match s.active with
   | none => True
   | some a => a ∈ allWidgets s)

instance (s : DialogState) : Decidable (WF s) := by
  unfold WF
  cases s.active <;> simp <;> infer_instance

/-- One externally requested operation on the dialog. -/
inductive DialogOp where
  | addF : Nat → Bool → DialogOp
  | addG : Nat → DialogOp
  | rmF : Nat → DialogOp
  | rmG : Nat → DialogOp
deriving DecidableEq

/-- The contact id an operation is about. -/
def opId : DialogOp → Nat
  | .addF i _ => i
  | .addG i => i
  | .rmF i => i
  | .rmG i => i

/-- Whether an operation is an add. -/
def isAdd : DialogOp → Bool
  | .addF _ _ => true
  | .addG _ => true
  | .rmF _ => false
  | .rmG _ => false

/-- Apply one operation to the dialog state. -/
def applyOp (s : DialogState) : DialogOp → DialogState
  | .addF i st => addFriend i st s
  | .addG i => addGroup i s
  | .rmF i => (removeFriend i s).1
  | .rmG i => (removeGroup i s).1

/-- Apply a sequence of operations left to right. -/
def applyOps (s : DialogState) (ops : List DialogOp) : DialogState :=
  ops.foldl applyOp s

/-- Operation precondition matching the source's assumptions: adds are
of ids not currently managed (re-adding a present id duplicates its
widget in the layouts); removals are of currently managed ids of the
matching kind (removing a missing or wrong-kind id dereferences a null
qobject_cast in the source). -/
def opValid (s : DialogState) : DialogOp → Bool
  | .addF i _ => !memB i s.contactWidgets
  | .addG i => !memB i s.contactWidgets
  | .rmF i => memB i s.online || memB i s.offline
  | .rmG i => memB i s.groups

/-- All operations of a sequence valid, each in the state produced by
its predecessors. -/
def opsValid (s : DialogState) : List DialogOp → Bool
  | [] => true
  | op :: rest => opValid s op && opsValid (applyOp s op) rest

/-- Whether the last add/remove operation about `i` in the sequence is
an add, starting from `b` (whether `i` is managed initially). -/
def netFrom (b : Bool) (ops : List DialogOp) (i : Nat) : Bool :=
  ops.foldl (fun acc op => if opId op = i then isAdd op else acc) b

/-- Whether the last operation about `i` is an add, starting from an
empty dialog. -/
def netAdded (ops : List DialogOp) (i : Nat) : Bool :=
  netFrom false ops i

/-- Ids added by a sequence (the claim's set of adds). -/
def addedIds (ops : List DialogOp) : List Nat :=
  (ops.filter (fun o => isAdd o)).map opId

/-- Ids removed by a sequence (the claim's set of removes). -/
def removedIds (ops : List DialogOp) : List Nat :=
  (ops.filter (fun o => !isAdd o)).map opId

/-- An empty dialog. -/
def emptyState (g : Bool) : DialogState :=
  { online := [], offline := [], groups := [], contactWidgets := [],
    active := none, groupsOnTop := g }

/-- The spec's scenario state: friend A(=1) online, friend B(=2)
offline, group G(=3), groupsOnTop false, A active. -/
def stateABG : DialogState :=
  { online := [1], offline := [2], groups := [3], contactWidgets := [1, 2, 3],
    active := some 1, groupsOnTop := false }

/-- A state with all three groupings non-empty and the active contact at
the last position of the offline grouping: online [1, 4], groups [5],
offline [2], active 2. -/
def stateRing : DialogState :=
  { online := [1, 4], offline := [2], groups := [5], contactWidgets := [1, 4, 2, 5],
    active := some 2, groupsOnTop := false }

/-- A dialog with a single online friend 7, which is active. -/
def stateSolo : DialogState :=
  { online := [7], offline := [], groups := [], contactWidgets := [7],
    active := some 7, groupsOnTop := false }

/-- A populated dialog with no active contact. -/
def stateIdle : DialogState :=
  { online := [1], offline := [2], groups := [3], contactWidgets := [1, 2, 3],
    active := none, groupsOnTop := false }

/-- Add friend 1, remove it, add it again. -/
def opsReAdd : List DialogOp := [.addF 1 true, .rmF 1, .addF 1 true]

/-- Add friend 1 and group 2, then remove friend 1. -/
def opsMix : List DialogOp := [.addF 1 true, .addG 2, .rmF 1]

/-- Postcondition of removing the active contact `id`: when another
managed contact exists, a different still-managed contact ends up
active and close does not fire; when `id` was the only managed contact,
no contact is active afterwards and the dialog-should-close signal
fires. -/
def removalPost (id : Nat) (s : DialogState) (p : DialogState × Bool) : Prop :=
  ((∃ b ∈ s.contactWidgets, b ≠ id) →
    ∃ w, w ≠ id ∧ p.1.active = some w ∧ w ∈ p.1.contactWidgets ∧ p.2 = false) ∧
  ((∀ b ∈ s.contactWidgets, b = id) → p.1.active = none ∧ p.2 = true)

/-! ## Basic list lemmas -/

theorem bool_ext {a b : Bool} (h : (a = true) ↔ (b = true)) : a = b := by
  cases a <;> cases b <;> simp_all

theorem memB_iff {x : Nat} {l : List Nat} : memB x l = true ↔ x ∈ l := by
  induction l with
  | nil => simp [memB]
  | cons y ys ih =>
    simp only [memB, List.mem_cons]
    by_cases h : y = x
    · subst h; simp
    · rw [if_neg h, ih]
      constructor
      · exact fun hx => Or.inr hx
      · rintro (rfl | hx)
        · exact absurd rfl h
        · exact hx

theorem memB_eq_false_iff {x : Nat} {l : List Nat} : memB x l = false ↔ x ∉ l := by
  constructor
  · intro h hx
    rw [← memB_iff] at hx
    rw [h] at hx
    cases hx
  · intro h
    cases hb : memB x l
    · rfl
    · exact absurd (memB_iff.mp hb) h

theorem findPos_lt {α : Type} [DecidableEq α] {x : α} :
    ∀ {l : List α} {i : Nat}, findPos x l = some i → i < l.length := by
  intro l
  induction l with
  | nil => intro i h; simp [findPos] at h
  | cons y ys ih =>
    intro i h
    simp only [findPos] at h
    by_cases hy : y = x
    · rw [if_pos hy] at h
      cases h
      simp
    · rw [if_neg hy] at h
      cases hf : findPos x ys with
      | none => rw [hf] at h; simp at h
      | some j =>
        rw [hf] at h
        simp only [Option.map_some'] at h
        cases h
        have := ih hf
        simp only [List.length_cons]
        omega

theorem findPos_get {α : Type} [DecidableEq α] {x : α} :
    ∀ {l : List α} {i : Nat}, findPos x l = some i → l[i]? = some x := by
  intro l
  induction l with
  | nil => intro i h; simp [findPos] at h
  | cons y ys ih =>
    intro i h
    simp only [findPos] at h
    by_cases hy : y = x
    · rw [if_pos hy] at h
      cases h
      simp [hy]
    · rw [if_neg hy] at h
      cases hf : findPos x ys with
      | none => rw [hf] at h; simp at h
      | some j =>
        rw [hf] at h
        simp only [Option.map_some'] at h
        cases h
        simpa using ih hf

theorem findPos_none {α : Type} [DecidableEq α] {x : α} :
    ∀ {l : List α}, findPos x l = none → x ∉ l := by
  intro l
  induction l with
  | nil => intro _ h; cases h
  | cons y ys ih =>
    intro h hx
    simp only [findPos] at h
    by_cases hy : y = x
    · rw [if_pos hy] at h; cases h
    · rw [if_neg hy] at h
      cases hf : findPos x ys with
      | none =>
        rcases List.mem_cons.mp hx with rfl | hmem
        · exact hy rfl
        · exact ih hf hmem
      | some j => rw [hf] at h; simp at h

theorem mem_findPos {α : Type} [DecidableEq α] {x : α} {l : List α} (h : x ∈ l) :
    ∃ i, findPos x l = some i := by
  cases hf : findPos x l with
  | none => exact absurd h (findPos_none hf)
  | some i => exact ⟨i, rfl⟩

theorem get?_lt {α : Type} {l : List α} {i : Nat} {x : α} (h : l[i]? = some x) :
    i < l.length := by
  rcases List.getElem?_eq_some_iff.mp h with ⟨hlt, _⟩
  exact hlt

theorem get?_mem {α : Type} {l : List α} {i : Nat} {x : α} (h : l[i]? = some x) :
    x ∈ l := by
  rcases List.getElem?_eq_some_iff.mp h with ⟨hlt, rfl⟩
  exact List.getElem_mem hlt

theorem nodup_get_ne {α : Type} {l : List α} (nd : l.Nodup) {i j : Nat} (hij : i ≠ j)
    {x y : α} (hx : l[i]? = some x) (hy : l[j]? = some y) : x ≠ y := by
  rcases List.getElem?_eq_some_iff.mp hx with ⟨hi, rfl⟩
  rcases List.getElem?_eq_some_iff.mp hy with ⟨hj, rfl⟩
  intro he
  exact hij ((nd.getElem_inj_iff).mp he)

theorem all_eq_of_singleton {α : Type} {l : List α} {a : α} (hlen : l.length = 1)
    (h0 : l[0]? = some a) : ∀ b ∈ l, b = a := by
  match l, hlen with
  | [x], _ =>
    intro b hb
    simp at h0
    rcases List.mem_singleton.mp hb with rfl
    exact h0

theorem erase_all_eq_nil {l : List Nat} {a : Nat} (nd : l.Nodup)
    (h : ∀ b ∈ l, b = a) : l.erase a = [] := by
  match l with
  | [] => rfl
  | x :: t =>
    have hx : x = a := h x (List.mem_cons_self x t)
    subst hx
    rw [List.erase_cons_head]
    cases t with
    | nil => rfl
    | cons z t2 =>
      have hz : z = x := h z (List.mem_cons_of_mem x (List.mem_cons_self z t2))
      subst hz
      exact absurd (List.mem_cons_self z t2) (List.nodup_cons.mp nd).1

theorem eq_nil_of_all_eq_not_mem {l : List Nat} {a : Nat}
    (h : ∀ b ∈ l, b = a) (hn : a ∉ l) : l = [] := by
  cases l with
  | nil => rfl
  | cons x t =>
    have hx : x = a := h x (List.mem_cons_self x t)
    subst hx
    exact absurd (List.mem_cons_self x t) hn

theorem erase_isEmpty_iff {l : List Nat} {a : Nat} (nd : l.Nodup) :
    (l.erase a).isEmpty = true ↔ ∀ b ∈ l, b = a := by
  constructor
  · intro h b hb
    by_contra hne
    have : b ∈ l.erase a := (List.mem_erase_of_ne hne).mpr hb
    rw [List.isEmpty_iff.mp h] at this
    cases this
  · intro h
    rw [List.isEmpty_iff]
    exact erase_all_eq_nil nd h

/-! ## Ring lemmas about the three-layout cycle -/

theorem nextLayout_ne (s : DialogState) (cur : LayoutKind) (b : Bool) :
    nextLayout s cur b ≠ cur := by
  cases hg : s.groupsOnTop <;> cases cur <;> cases b <;>
    simp [nextLayout, layouts, hg, findPos]

theorem nextLayout_two_ne (s : DialogState) (cur : LayoutKind) (b : Bool) :
    nextLayout s (nextLayout s cur b) b ≠ cur := by
  cases hg : s.groupsOnTop <;> cases cur <;> cases b <;>
    simp [nextLayout, layouts, hg, findPos]

theorem nextLayout_three (s : DialogState) (cur : LayoutKind) (b : Bool) :
    nextLayout s (nextLayout s (nextLayout s cur b) b) b = cur := by
  cases hg : s.groupsOnTop <;> cases cur <;> cases b <;>
    simp [nextLayout, layouts, hg, findPos]

theorem layoutKind_cases (s : DialogState) (cur : LayoutKind) (b : Bool) (k : LayoutKind) :
    k = cur ∨ k = nextLayout s cur b ∨ k = nextLayout s (nextLayout s cur b) b := by
  cases hg : s.groupsOnTop <;> cases cur <;> cases b <;> cases k <;>
    simp [nextLayout, layouts, hg, findPos]

/-! ## Well-formedness consequences -/

theorem mem_allWidgets_iff {s : DialogState} {x : Nat} :
    x ∈ allWidgets s ↔ x ∈ s.online ∨ x ∈ s.offline ∨ x ∈ s.groups := by
  simp [allWidgets, or_assoc]

theorem mem_allWidgets_of_layout {s : DialogState} {x : Nat} {k : LayoutKind}
    (h : x ∈ layoutOf s k) : x ∈ allWidgets s := by
  rw [mem_allWidgets_iff]
  cases k
  · exact Or.inl h
  · exact Or.inr (Or.inr h)
  · exact Or.inr (Or.inl h)

theorem mem_layout_of_allWidgets {s : DialogState} {x : Nat}
    (h : x ∈ allWidgets s) : ∃ k, x ∈ layoutOf s k := by
  rcases mem_allWidgets_iff.mp h with h1 | h1 | h1
  · exact ⟨.online, h1⟩
  · exact ⟨.offline, h1⟩
  · exact ⟨.groups, h1⟩

theorem wf_layout_nodup {s : DialogState} (hwf : WF s) (k : LayoutKind) :
    (layoutOf s k).Nodup := by
  have h := hwf.1
  rw [allWidgets] at h
  rcases List.nodup_append.mp h with ⟨h12, hg, _⟩
  rcases List.nodup_append.mp h12 with ⟨ho, hf, _⟩
  cases k
  · exact ho
  · exact hg
  · exact hf

theorem wf_disjoint {s : DialogState} (hwf : WF s) {k k2 : LayoutKind} (hne : k ≠ k2)
    {x : Nat} (h1 : x ∈ layoutOf s k) (h2 : x ∈ layoutOf s k2) : False := by
  have h := hwf.1
  rw [allWidgets] at h
  rcases List.nodup_append.mp h with ⟨h12, _, hdisj⟩
  rcases List.nodup_append.mp h12 with ⟨_, _, d1⟩
  rcases List.disjoint_append_left.mp hdisj with ⟨d2, d3⟩
  cases k <;> cases k2 <;> simp only [layoutOf] at h1 h2 <;>
    first
      | exact hne rfl
      | exact d1 h1 h2
      | exact d1.symm h1 h2
      | exact d2 h1 h2
      | exact d2.symm h1 h2
      | exact d3 h1 h2
      | exact d3.symm h1 h2

theorem wf_active_mem {s : DialogState} {a : Nat} (hwf : WF s) (ha : s.active = some a) :
    a ∈ allWidgets s := by
  have h := hwf.2.2.2.2
  rw [ha] at h
  exact h

theorem wf_contacts_of_allWidgets {s : DialogState} (hwf : WF s) {x : Nat}
    (h : x ∈ allWidgets s) : x ∈ s.contactWidgets :=
  hwf.2.2.1 x h

theorem wf_allWidgets_of_contacts {s : DialogState} (hwf : WF s) {x : Nat}
    (h : x ∈ s.contactWidgets) : x ∈ allWidgets s :=
  hwf.2.2.2.1 x h

theorem getCurrentLayout_some {s : DialogState} {a : Nat} (ha : s.active = some a)
    (hmem : a ∈ allWidgets s) :
    ∃ cur idx, getCurrentLayout s = some (cur, idx) ∧ (layoutOf s cur)[idx]? = some a := by
  cases h1 : findPos a s.online with
  | some i => exact ⟨.online, i, by simp [getCurrentLayout, ha, h1], findPos_get h1⟩
  | none =>
    cases h2 : findPos a s.offline with
    | some i => exact ⟨.offline, i, by simp [getCurrentLayout, ha, h1, h2], findPos_get h2⟩
    | none =>
      cases h3 : findPos a s.groups with
      | some i =>
        exact ⟨.groups, i, by simp [getCurrentLayout, ha, h1, h2, h3], findPos_get h3⟩
      | none =>
        exfalso
        rcases mem_allWidgets_iff.mp hmem with h | h | h
        · exact findPos_none h1 h
        · exact findPos_none h2 h
        · exact findPos_none h3 h

theorem getCurrentLayout_none_of_no_active {s : DialogState} (ha : s.active = none) :
    getCurrentLayout s = none := by
  unfold getCurrentLayout
  rw [ha]

theorem nextIsEmpty_subsequent (s : DialogState) (cur : LayoutKind) :
    nextIsEmpty s cur = subsequentEmpty s cur := by
  cases hg : s.groupsOnTop <;> cases cur <;>
    simp [nextIsEmpty, subsequentEmpty, ringIndex, layouts, layoutOf, hg, findPos] <;>
    (try rw [Bool.and_comm])

theorem nextIsEmpty_of_both_empty (s : DialogState) (cur : LayoutKind)
    (h1 : layoutOf s (nextLayout s cur true) = [])
    (h2 : layoutOf s (nextLayout s (nextLayout s cur true) true) = []) :
    nextIsEmpty s cur = true := by
  cases hg : s.groupsOnTop <;> cases cur <;>
    simp [nextLayout, layouts, hg, findPos, layoutOf] at h1 h2 ⊢ <;>
    simp [nextIsEmpty, h1, h2]

theorem cycleLoop_inbounds (s : DialogState) (f : Bool) (fuel : Nat) (cur : LayoutKind)
    (j : Int) (h0 : 0 ≤ j) (hlt : j < ((layoutOf s cur).length : Int)) :
    cycleLoop s f (fuel + 1) cur j = some (cur, j.toNat) := by
  simp only [cycleLoop]
  rw [if_neg (by omega)]

theorem cycleLoop_step (s : DialogState) (f : Bool) (fuel : Nat) (cur : LayoutKind)
    (index : Int) (hout : index < 0 ∨ index ≥ ((layoutOf s cur).length : Int)) :
    cycleLoop s f (fuel + 1) cur index =
      cycleLoop s f fuel (nextLayout s cur f)
        (if index < 0 then ((layoutOf s (nextLayout s cur f)).length : Int) - 1
         else if index ≥ ((layoutOf s cur).length : Int) then 0 else index) := by
  simp only [cycleLoop]
  rw [if_pos hout]

theorem cycleLoop_forward (s : DialogState) (cur : LayoutKind)
    (h : (layoutOf s cur).length ≠ 0) :
    cycleLoop s true 4 cur ((layoutOf s cur).length : Int) =
      if layoutOf s (nextLayout s cur true) = [] then
        if layoutOf s (nextLayout s (nextLayout s cur true) true) = [] then
          some (cur, 0)
        else some (nextLayout s (nextLayout s cur true) true, 0)
      else some (nextLayout s cur true, 0) := by
  have e1 : cycleLoop s true 4 cur ((layoutOf s cur).length : Int) =
      cycleLoop s true 3 (nextLayout s cur true) 0 := by
    have hstep := cycleLoop_step s true 3 cur ((layoutOf s cur).length : Int)
      (Or.inr (le_refl _))
    rw [if_neg (by omega), if_pos (le_refl _)] at hstep
    exact hstep
  rw [e1]
  by_cases h1 : layoutOf s (nextLayout s cur true) = []
  · rw [if_pos h1]
    have e2 : cycleLoop s true 3 (nextLayout s cur true) 0 =
        cycleLoop s true 2 (nextLayout s (nextLayout s cur true) true) 0 := by
      have hstep := cycleLoop_step s true 2 (nextLayout s cur true) 0
        (Or.inr (by simp [h1]))
      rw [if_neg (by omega), if_pos (by simp [h1])] at hstep
      exact hstep
    rw [e2]
    by_cases h2 : layoutOf s (nextLayout s (nextLayout s cur true) true) = []
    · rw [if_pos h2]
      have e3 : cycleLoop s true 2 (nextLayout s (nextLayout s cur true) true) 0 =
          cycleLoop s true 1 cur 0 := by
        have hstep := cycleLoop_step s true 1
          (nextLayout s (nextLayout s cur true) true) 0 (Or.inr (by simp [h2]))
        rw [if_neg (by omega), if_pos (by simp [h2]), nextLayout_three] at hstep
        exact hstep
      rw [e3]
      have := cycleLoop_inbounds s true 0 cur 0 (le_refl 0) (by omega)
      exact this
    · rw [if_neg h2]
      have hp : (0 : Int) < ((layoutOf s (nextLayout s (nextLayout s cur true) true)).length : Int) := by
        have := List.length_pos.mpr h2
        omega
      exact cycleLoop_inbounds s true 1 _ 0 (le_refl 0) hp
  · rw [if_neg h1]
    have hp : (0 : Int) < ((layoutOf s (nextLayout s cur true)).length : Int) := by
      have := List.length_pos.mpr h1
      omega
    exact cycleLoop_inbounds s true 2 _ 0 (le_refl 0) hp

theorem cycleLoop_backward (s : DialogState) (cur : LayoutKind)
    (h : (layoutOf s cur).length ≠ 0) :
    cycleLoop s false 4 cur (-1) =
      if layoutOf s (nextLayout s cur false) = [] then
        if layoutOf s (nextLayout s (nextLayout s cur false) false) = [] then
          some (cur, (layoutOf s cur).length - 1)
        else some (nextLayout s (nextLayout s cur false) false,
          (layoutOf s (nextLayout s (nextLayout s cur false) false)).length - 1)
      else some (nextLayout s cur false, (layoutOf s (nextLayout s cur false)).length - 1) := by
  have e1 : cycleLoop s false 4 cur (-1) =
      cycleLoop s false 3 (nextLayout s cur false)
        (((layoutOf s (nextLayout s cur false)).length : Int) - 1) := by
    have hstep := cycleLoop_step s false 3 cur (-1) (Or.inl (by omega))
    rw [if_pos (by omega)] at hstep
    exact hstep
  rw [e1]
  by_cases h1 : layoutOf s (nextLayout s cur false) = []
  · rw [if_pos h1]
    have e2 : cycleLoop s false 3 (nextLayout s cur false)
        (((layoutOf s (nextLayout s cur false)).length : Int) - 1) =
        cycleLoop s false 2 (nextLayout s (nextLayout s cur false) false)
          (((layoutOf s (nextLayout s (nextLayout s cur false) false)).length : Int) - 1) := by
      have hstep := cycleLoop_step s false 2 (nextLayout s cur false)
        (((layoutOf s (nextLayout s cur false)).length : Int) - 1)
        (Or.inl (by simp [h1]))
      rw [if_pos (by simp [h1])] at hstep
      exact hstep
    rw [e2]
    by_cases h2 : layoutOf s (nextLayout s (nextLayout s cur false) false) = []
    · rw [if_pos h2]
      have e3 : cycleLoop s false 2 (nextLayout s (nextLayout s cur false) false)
          (((layoutOf s (nextLayout s (nextLayout s cur false) false)).length : Int) - 1) =
          cycleLoop s false 1 cur (((layoutOf s cur).length : Int) - 1) := by
        have hstep := cycleLoop_step s false 1
          (nextLayout s (nextLayout s cur false) false)
          (((layoutOf s (nextLayout s (nextLayout s cur false) false)).length : Int) - 1)
          (Or.inl (by simp [h2]))
        rw [if_pos (by simp [h2]), nextLayout_three] at hstep
        exact hstep
      rw [e3]
      have hin := cycleLoop_inbounds s false 0 cur (((layoutOf s cur).length : Int) - 1)
        (by omega) (by omega)
      rw [hin]
      congr 1
      congr 1
      omega
    · rw [if_neg h2]
      have hlen := List.length_pos.mpr h2
      have hin := cycleLoop_inbounds s false 1
        (nextLayout s (nextLayout s cur false) false)
        (((layoutOf s (nextLayout s (nextLayout s cur false) false)).length : Int) - 1)
        (by omega) (by omega)
      rw [hin]
      congr 1
      congr 1
      omega
  · rw [if_neg h1]
    have hlen := List.length_pos.mpr h1
    have hin := cycleLoop_inbounds s false 2 (nextLayout s cur false)
      (((layoutOf s (nextLayout s cur false)).length : Int) - 1)
      (by omega) (by omega)
    rw [hin]
    congr 1
    congr 1
    omega

theorem cycleContacts_eval {s : DialogState} {cur : LayoutKind} {idx : Nat}
    (hGL : getCurrentLayout s = some (cur, idx)) (fwd2 : Bool)
    (hfwd : (if flipCond false cur idx s = true then !true else true) = fwd2) :
    cycleContacts true false s =
      match cycleLoop s fwd2 4 cur ((idx : Int) + if fwd2 = true then 1 else -1) with
      | none => s
      | some (cur2, i) =>
        match (layoutOf s cur2)[i]? with
        | none => s
        | some w => if s.active ≠ some w then activate w s else s := by
  simp only [cycleContacts, hGL, hfwd]

theorem nodup_all_eq_singleton {l : List Nat} {a : Nat} (nd : l.Nodup) (hm : a ∈ l)
    (hall : ∀ b ∈ l, b = a) : l = [a] := by
  cases l with
  | nil => cases hm
  | cons x t =>
    have hx : x = a := hall x (List.mem_cons_self x t)
    subst hx
    have ht : t = [] :=
      @eq_nil_of_all_eq_not_mem t x
        (fun b hb => hall b (List.mem_cons_of_mem x hb))
        (List.nodup_cons.mp nd).1
    rw [ht]

theorem cycle_finish {s : DialogState} {w : Nat} (hactive : s.active ≠ some w)
    (cur2 : LayoutKind) (j : Nat) (hw : (layoutOf s cur2)[j]? = some w) :
    (match (some (cur2, j) : Option (LayoutKind × Nat)) with
      | none => s
      | some (c2, i) =>
        match (layoutOf s c2)[i]? with
        | none => s
        | some w2 => if s.active ≠ some w2 then activate w2 s else s) =
    { s with active := some w } := by
  simp only [hw]
  rw [if_pos hactive]
  unfold activate
  rw [if_neg hactive]

theorem cycle_finish_self {s : DialogState} {w : Nat} (hactive : s.active = some w)
    (cur2 : LayoutKind) (j : Nat) (hw : (layoutOf s cur2)[j]? = some w) :
    (match (some (cur2, j) : Option (LayoutKind × Nat)) with
      | none => s
      | some (c2, i) =>
        match (layoutOf s c2)[i]? with
        | none => s
        | some w2 => if s.active ≠ some w2 then activate w2 s else s) = s := by
  simp only [hw]
  rw [if_neg (fun h => h hactive)]

theorem cycle_activates_layout (f i : Bool) (s : DialogState) :
    cycleContacts f i s = s ∨
    ∃ w, w ∈ allWidgets s ∧ cycleContacts f i s = { s with active := some w } := by
  unfold cycleContacts activate
  repeat' (first | split | dsimp only)
  all_goals first
    | (left; rfl)
    | (right; exact ⟨_, mem_allWidgets_of_layout (get?_mem (by assumption)), rfl⟩)

theorem cycle_active_managed {s : DialogState} (hwf : WF s) (f i : Bool) {w : Nat}
    (hw : (cycleContacts f i s).active = some w) : w ∈ s.contactWidgets := by
  rcases cycle_activates_layout f i s with h | ⟨w2, hmem, h⟩
  · rw [h] at hw
    exact wf_contacts_of_allWidgets hwf (wf_active_mem hwf hw)
  · rw [h] at hw
    have hww : w2 = w := by simpa using hw
    subst hww
    exact wf_contacts_of_allWidgets hwf hmem

theorem cycle_online (f i : Bool) (s : DialogState) :
    (cycleContacts f i s).online = s.online := by
  rcases cycle_activates_layout f i s with h | ⟨w, _, h⟩ <;> rw [h]

theorem cycle_offline (f i : Bool) (s : DialogState) :
    (cycleContacts f i s).offline = s.offline := by
  rcases cycle_activates_layout f i s with h | ⟨w, _, h⟩ <;> rw [h]

theorem cycle_groups (f i : Bool) (s : DialogState) :
    (cycleContacts f i s).groups = s.groups := by
  rcases cycle_activates_layout f i s with h | ⟨w, _, h⟩ <;> rw [h]

theorem cycle_contacts_eq (f i : Bool) (s : DialogState) :
    (cycleContacts f i s).contactWidgets = s.contactWidgets := by
  rcases cycle_activates_layout f i s with h | ⟨w, _, h⟩ <;> rw [h]

theorem cycle_selects {s : DialogState} {a : Nat} (hwf : WF s) (ha : s.active = some a)
    (hb : ∃ b, b ∈ allWidgets s ∧ b ≠ a) :
    ∃ w, w ≠ a ∧ w ∈ allWidgets s ∧
      cycleContacts true false s = { s with active := some w } := by
  obtain ⟨cur, idx, hGL, hidx⟩ := getCurrentLayout_some ha (wf_active_mem hwf ha)
  have hlt : idx < (layoutOf s cur).length := get?_lt hidx
  have hnd : (layoutOf s cur).Nodup := wf_layout_nodup hwf cur
  have hne0 : (layoutOf s cur).length ≠ 0 := by omega
  have hamem : a ∈ layoutOf s cur := get?_mem hidx
  by_cases hlast : idx = (layoutOf s cur).length - 1
  case neg =>
    have hflip : flipCond false cur idx s = false := by
      simp [flipCond, hlast]
    have hfwd : (if flipCond false cur idx s = true then !true else true) = true := by
      rw [hflip]
      decide
    have heval := cycleContacts_eval hGL true hfwd
    have hst : ((idx : Int) + if true = true then 1 else -1) = ((idx : Int) + 1) := rfl
    rw [hst] at heval
    have hlt1 : idx + 1 < (layoutOf s cur).length := by omega
    obtain ⟨w, hw⟩ : ∃ w, (layoutOf s cur)[idx + 1]? = some w :=
      ⟨_, List.getElem?_eq_getElem hlt1⟩
    have hwa : w ≠ a := nodup_get_ne hnd (by omega) hw hidx
    have hactive : s.active ≠ some w := by
      rw [ha]
      intro h
      exact hwa (Option.some.inj h).symm
    have hloop : cycleLoop s true 4 cur ((idx : Int) + 1) = some (cur, idx + 1) := by
      have htn : ((idx : Int) + 1).toNat = idx + 1 := by omega
      rw [cycleLoop_inbounds s true 3 cur ((idx : Int) + 1) (by omega) (by omega), htn]
    refine ⟨w, hwa, mem_allWidgets_of_layout (get?_mem hw), ?_⟩
    rw [heval, hloop]
    exact cycle_finish hactive cur (idx + 1) hw
  case pos =>
    by_cases hnie : nextIsEmpty s cur = true
    case pos =>
      have hflip : flipCond false cur idx s = true := by
        simp [flipCond, hlast, hnie]
      have hfwd : (if flipCond false cur idx s = true then !true else true) = false := by
        rw [hflip]
        decide
      have heval := cycleContacts_eval hGL false hfwd
      by_cases hn1 : (layoutOf s cur).length = 1
      case pos =>
        have hidx0 : idx = 0 := by omega
        have hst : ((idx : Int) + if false = true then 1 else -1) = (-1 : Int) := by
          rw [hidx0]
          decide
        rw [hst] at heval
        have hback := cycleLoop_backward s cur hne0
        by_cases hp1 : layoutOf s (nextLayout s cur false) = []
        case pos =>
          by_cases hp2 : layoutOf s (nextLayout s (nextLayout s cur false) false) = []
          case pos =>
            exfalso
            obtain ⟨b, hbmem, hba⟩ := hb
            obtain ⟨k, hk⟩ := mem_layout_of_allWidgets hbmem
            rcases layoutKind_cases s cur false k with he | he | he
            · rw [he] at hk
              have hsing : layoutOf s cur = [a] :=
                nodup_all_eq_singleton hnd hamem (by
                  intro b2 hb2
                  by_contra hne
                  have h01 : (layoutOf s cur)[0]? = some a := by
                    rw [hidx0] at hidx
                    exact hidx
                  exact hne (all_eq_of_singleton hn1 h01 b2 hb2))
              rw [hsing] at hk
              exact hba (List.mem_singleton.mp hk)
            · rw [he, hp1] at hk
              cases hk
            · rw [he, hp2] at hk
              cases hk
          case neg =>
            have hloop : cycleLoop s false 4 cur (-1) =
                some (nextLayout s (nextLayout s cur false) false,
                  (layoutOf s (nextLayout s (nextLayout s cur false) false)).length - 1) := by
              rw [hback, if_pos hp1, if_neg hp2]
            have hplen : 0 < (layoutOf s (nextLayout s (nextLayout s cur false) false)).length :=
              List.length_pos.mpr hp2
            obtain ⟨w, hw⟩ : ∃ w,
                (layoutOf s (nextLayout s (nextLayout s cur false) false))[
                  (layoutOf s (nextLayout s (nextLayout s cur false) false)).length - 1]? =
                  some w :=
              ⟨_, List.getElem?_eq_getElem (by omega)⟩
            have hwa : w ≠ a := by
              intro he
              subst he
              exact wf_disjoint hwf (nextLayout_two_ne s cur false) (get?_mem hw) hamem
            have hactive : s.active ≠ some w := by
              rw [ha]
              intro h
              exact hwa (Option.some.inj h).symm
            refine ⟨w, hwa, mem_allWidgets_of_layout (get?_mem hw), ?_⟩
            rw [heval, hloop]
            exact cycle_finish hactive _ _ hw
        case neg =>
          have hloop : cycleLoop s false 4 cur (-1) =
              some (nextLayout s cur false,
                (layoutOf s (nextLayout s cur false)).length - 1) := by
            rw [hback, if_neg hp1]
          have hplen : 0 < (layoutOf s (nextLayout s cur false)).length :=
            List.length_pos.mpr hp1
          obtain ⟨w, hw⟩ : ∃ w,
              (layoutOf s (nextLayout s cur false))[
                (layoutOf s (nextLayout s cur false)).length - 1]? = some w :=
            ⟨_, List.getElem?_eq_getElem (by omega)⟩
          have hwa : w ≠ a := by
            intro he
            subst he
            exact wf_disjoint hwf (nextLayout_ne s cur false) (get?_mem hw) hamem
          have hactive : s.active ≠ some w := by
            rw [ha]
            intro h
            exact hwa (Option.some.inj h).symm
          refine ⟨w, hwa, mem_allWidgets_of_layout (get?_mem hw), ?_⟩
          rw [heval, hloop]
          exact cycle_finish hactive _ _ hw
      case neg =>
        have hge2 : 2 ≤ (layoutOf s cur).length := by omega
        have hidxpos : 1 ≤ idx := by omega
        have hst : ((idx : Int) + if false = true then 1 else -1) = ((idx : Int) - 1) := by
          show (idx : Int) + -1 = (idx : Int) - 1
          ring
        rw [hst] at heval
        have hloop : cycleLoop s false 4 cur ((idx : Int) - 1) = some (cur, idx - 1) := by
          have htn : ((idx : Int) - 1).toNat = idx - 1 := by omega
          rw [cycleLoop_inbounds s false 3 cur ((idx : Int) - 1) (by omega) (by omega), htn]
        obtain ⟨w, hw⟩ : ∃ w, (layoutOf s cur)[idx - 1]? = some w :=
          ⟨_, List.getElem?_eq_getElem (by omega)⟩
        have hwa : w ≠ a := nodup_get_ne hnd (by omega) hw hidx
        have hactive : s.active ≠ some w := by
          rw [ha]
          intro h
          exact hwa (Option.some.inj h).symm
        refine ⟨w, hwa, mem_allWidgets_of_layout (get?_mem hw), ?_⟩
        rw [heval, hloop]
        exact cycle_finish hactive cur (idx - 1) hw
    case neg =>
      have hflip : flipCond false cur idx s = false := by
        simp [flipCond, hnie]
      have hfwd : (if flipCond false cur idx s = true then !true else true) = true := by
        rw [hflip]
        decide
      have heval := cycleContacts_eval hGL true hfwd
      have hst : ((idx : Int) + if true = true then 1 else -1) =
          ((layoutOf s cur).length : Int) := by
        show (idx : Int) + 1 = ((layoutOf s cur).length : Int)
        omega
      rw [hst] at heval
      have hfwdloop := cycleLoop_forward s cur hne0
      by_cases h1 : layoutOf s (nextLayout s cur true) = []
      case pos =>
        by_cases h2 : layoutOf s (nextLayout s (nextLayout s cur true) true) = []
        case pos =>
          exact absurd (nextIsEmpty_of_both_empty s cur h1 h2) hnie
        case neg =>
          have hloop : cycleLoop s true 4 cur ((layoutOf s cur).length : Int) =
              some (nextLayout s (nextLayout s cur true) true, 0) := by
            rw [hfwdloop, if_pos h1, if_neg h2]
          have hplen : 0 < (layoutOf s (nextLayout s (nextLayout s cur true) true)).length :=
            List.length_pos.mpr h2
          obtain ⟨w, hw⟩ : ∃ w,
              (layoutOf s (nextLayout s (nextLayout s cur true) true))[0]? = some w :=
            ⟨_, List.getElem?_eq_getElem (by omega)⟩
          have hwa : w ≠ a := by
            intro he
            subst he
            exact wf_disjoint hwf (nextLayout_two_ne s cur true) (get?_mem hw) hamem
          have hactive : s.active ≠ some w := by
            rw [ha]
            intro h
            exact hwa (Option.some.inj h).symm
          refine ⟨w, hwa, mem_allWidgets_of_layout (get?_mem hw), ?_⟩
          rw [heval, hloop]
          exact cycle_finish hactive _ _ hw
      case neg =>
        have hloop : cycleLoop s true 4 cur ((layoutOf s cur).length : Int) =
            some (nextLayout s cur true, 0) := by
          rw [hfwdloop, if_neg h1]
        have hplen : 0 < (layoutOf s (nextLayout s cur true)).length :=
          List.length_pos.mpr h1
        obtain ⟨w, hw⟩ : ∃ w, (layoutOf s (nextLayout s cur true))[0]? = some w :=
          ⟨_, List.getElem?_eq_getElem (by omega)⟩
        have hwa : w ≠ a := by
          intro he
          subst he
          exact wf_disjoint hwf (nextLayout_ne s cur true) (get?_mem hw) hamem
        have hactive : s.active ≠ some w := by
          rw [ha]
          intro h
          exact hwa (Option.some.inj h).symm
        refine ⟨w, hwa, mem_allWidgets_of_layout (get?_mem hw), ?_⟩
        rw [heval, hloop]
        exact cycle_finish hactive _ _ hw

theorem cycle_alone {s : DialogState} {a : Nat} (hwf : WF s) (ha : s.active = some a)
    (hall : ∀ b ∈ allWidgets s, b = a) :
    cycleContacts true false s = s := by
  obtain ⟨cur, idx, hGL, hidx⟩ := getCurrentLayout_some ha (wf_active_mem hwf ha)
  have hlt : idx < (layoutOf s cur).length := get?_lt hidx
  have hnd : (layoutOf s cur).Nodup := wf_layout_nodup hwf cur
  have hne0 : (layoutOf s cur).length ≠ 0 := by omega
  have hamem : a ∈ layoutOf s cur := get?_mem hidx
  have hothers : ∀ k, k ≠ cur → layoutOf s k = [] := by
    intro k hk
    cases hemp : layoutOf s k with
    | nil => rfl
    | cons x t =>
      exfalso
      have hx : x ∈ layoutOf s k := by
        rw [hemp]
        exact List.mem_cons_self x t
      have hxa : x = a := hall x (mem_allWidgets_of_layout hx)
      subst hxa
      exact wf_disjoint hwf hk hx hamem
  have hsing : layoutOf s cur = [a] := nodup_all_eq_singleton hnd hamem
    (fun b hb => hall b (mem_allWidgets_of_layout hb))
  have hlen : (layoutOf s cur).length = 1 := by rw [hsing]; rfl
  have hidx0 : idx = 0 := by omega
  have hp1 : layoutOf s (nextLayout s cur false) = [] :=
    hothers _ (nextLayout_ne s cur false)
  have hp2 : layoutOf s (nextLayout s (nextLayout s cur false) false) = [] :=
    hothers _ (nextLayout_two_ne s cur false)
  have hnie : nextIsEmpty s cur = true :=
    nextIsEmpty_of_both_empty s cur (hothers _ (nextLayout_ne s cur true))
      (hothers _ (nextLayout_two_ne s cur true))
  have hflip : flipCond false cur idx s = true := by
    simp [flipCond, hidx0, hlen, hnie]
  have hfwd : (if flipCond false cur idx s = true then !true else true) = false := by
    rw [hflip]
    decide
  have heval := cycleContacts_eval hGL false hfwd
  have hst : ((idx : Int) + if false = true then 1 else -1) = (-1 : Int) := by
    rw [hidx0]
    decide
  rw [hst] at heval
  have hloop : cycleLoop s false 4 cur (-1) = some (cur, (layoutOf s cur).length - 1) := by
    rw [cycleLoop_backward s cur hne0, if_pos hp1, if_pos hp2]
  have hw : (layoutOf s cur)[(layoutOf s cur).length - 1]? = some a := by
    rw [hsing]
    rfl
  rw [heval, hloop]
  exact cycle_finish_self ha cur ((layoutOf s cur).length - 1) hw

theorem removeFriend_active_replacement {s : DialogState} {id : Nat} (hwf : WF s)
    (ha : s.active = some id) (hb : ∃ b ∈ s.contactWidgets, b ≠ id) :
    ∃ w, w ≠ id ∧ (removeFriend id s).1.active = some w ∧
      w ∈ (removeFriend id s).1.contactWidgets ∧ (removeFriend id s).2 = false := by
  obtain ⟨b, hbc, hbne⟩ := hb
  obtain ⟨w, hwne, hwmem, hcyc⟩ :=
    cycle_selects hwf ha ⟨b, wf_allWidgets_of_contacts hwf hbc, hbne⟩
  have hwc : w ∈ s.contactWidgets := wf_contacts_of_allWidgets hwf hwmem
  have hwe : w ∈ s.contactWidgets.erase id := (List.mem_erase_of_ne hwne).mpr hwc
  have hcnt : ¬((s.online.erase id).length + (s.offline.erase id).length +
      s.groups.length = 0) := by
    rcases mem_allWidgets_iff.mp hwmem with h | h | h
    · have hm : w ∈ s.online.erase id := (List.mem_erase_of_ne hwne).mpr h
      have := List.length_pos.mpr (List.ne_nil_of_mem hm)
      omega
    · have hm : w ∈ s.offline.erase id := (List.mem_erase_of_ne hwne).mpr h
      have := List.length_pos.mpr (List.ne_nil_of_mem hm)
      omega
    · have := List.length_pos.mpr (List.ne_nil_of_mem h)
      omega
  have hkey : removeFriend id s =
      ({ online := s.online.erase id, offline := s.offline.erase id, groups := s.groups,
         contactWidgets := s.contactWidgets.erase id, active := some w,
         groupsOnTop := s.groupsOnTop }, (s.contactWidgets.erase id).isEmpty) := by
    simp only [removeFriend, if_pos ha, hcyc, chatroomCount]
    rw [if_neg hcnt]
  rw [hkey]
  exact ⟨w, hwne, rfl, hwe, List.isEmpty_eq_false.mpr (List.ne_nil_of_mem hwe)⟩

theorem removeGroup_active_replacement {s : DialogState} {id : Nat} (hwf : WF s)
    (ha : s.active = some id) (hb : ∃ b ∈ s.contactWidgets, b ≠ id) :
    ∃ w, w ≠ id ∧ (removeGroup id s).1.active = some w ∧
      w ∈ (removeGroup id s).1.contactWidgets ∧ (removeGroup id s).2 = false := by
  obtain ⟨b, hbc, hbne⟩ := hb
  obtain ⟨w, hwne, hwmem, hcyc⟩ :=
    cycle_selects hwf ha ⟨b, wf_allWidgets_of_contacts hwf hbc, hbne⟩
  have hwc : w ∈ s.contactWidgets := wf_contacts_of_allWidgets hwf hwmem
  have hwe : w ∈ s.contactWidgets.erase id := (List.mem_erase_of_ne hwne).mpr hwc
  have hcnt : ¬(s.online.length + s.offline.length + (s.groups.erase id).length = 0) := by
    rcases mem_allWidgets_iff.mp hwmem with h | h | h
    · have := List.length_pos.mpr (List.ne_nil_of_mem h)
      omega
    · have := List.length_pos.mpr (List.ne_nil_of_mem h)
      omega
    · have hm : w ∈ s.groups.erase id := (List.mem_erase_of_ne hwne).mpr h
      have := List.length_pos.mpr (List.ne_nil_of_mem hm)
      omega
  have hkey : removeGroup id s =
      ({ online := s.online, offline := s.offline, groups := s.groups.erase id,
         contactWidgets := s.contactWidgets.erase id, active := some w,
         groupsOnTop := s.groupsOnTop }, (s.contactWidgets.erase id).isEmpty) := by
    simp only [removeGroup, if_pos ha, hcyc, chatroomCount]
    rw [if_neg hcnt]
  rw [hkey]
  exact ⟨w, hwne, rfl, hwe, List.isEmpty_eq_false.mpr (List.ne_nil_of_mem hwe)⟩

theorem wf_all_eq_layouts {s : DialogState} (hwf : WF s) {id : Nat}
    (hall : ∀ b ∈ s.contactWidgets, b = id) :
    ∀ b ∈ allWidgets s, b = id :=
  fun b hb => hall b (wf_contacts_of_allWidgets hwf hb)

theorem removeFriend_last {s : DialogState} {id : Nat} (hwf : WF s)
    (ha : s.active = some id) (hmem : id ∈ s.online ∨ id ∈ s.offline)
    (hall : ∀ b ∈ s.contactWidgets, b = id) :
    (removeFriend id s).1.active = none ∧ (removeFriend id s).2 = true := by
  have hallW : ∀ b ∈ allWidgets s, b = id := wf_all_eq_layouts hwf hall
  have hcyc : cycleContacts true false s = s := cycle_alone hwf ha hallW
  have ho : s.online.erase id = [] :=
    erase_all_eq_nil (wf_layout_nodup hwf .online)
      (fun b hb => hallW b (mem_allWidgets_of_layout (show b ∈ layoutOf s LayoutKind.online from hb)))
  have hf : s.offline.erase id = [] :=
    erase_all_eq_nil (wf_layout_nodup hwf .offline)
      (fun b hb => hallW b (mem_allWidgets_of_layout (show b ∈ layoutOf s LayoutKind.offline from hb)))
  have hgnot : id ∉ s.groups := by
    intro hg
    rcases hmem with h | h
    · exact wf_disjoint hwf (show LayoutKind.online ≠ LayoutKind.groups by decide)
        (show id ∈ layoutOf s LayoutKind.online from h)
        (show id ∈ layoutOf s LayoutKind.groups from hg)
    · exact wf_disjoint hwf (show LayoutKind.offline ≠ LayoutKind.groups by decide)
        (show id ∈ layoutOf s LayoutKind.offline from h)
        (show id ∈ layoutOf s LayoutKind.groups from hg)
  have hg : s.groups = [] :=
    eq_nil_of_all_eq_not_mem
      (fun b hb => hallW b (mem_allWidgets_of_layout (show b ∈ layoutOf s LayoutKind.groups from hb))) hgnot
  have hc : s.contactWidgets.erase id = [] := erase_all_eq_nil hwf.2.1 hall
  have hkey : removeFriend id s =
      ({ online := [], offline := [], groups := s.groups,
         contactWidgets := [], active := none,
         groupsOnTop := s.groupsOnTop }, true) := by
    simp only [removeFriend, if_pos ha, hcyc, chatroomCount, ho, hf, hc]
    rw [if_pos (by rw [hg]; rfl)]
    simp [hc]
  rw [hkey]
  exact ⟨rfl, rfl⟩

theorem removeGroup_last {s : DialogState} {id : Nat} (hwf : WF s)
    (ha : s.active = some id) (hmem : id ∈ s.groups)
    (hall : ∀ b ∈ s.contactWidgets, b = id) :
    (removeGroup id s).1.active = none ∧ (removeGroup id s).2 = true := by
  have hallW : ∀ b ∈ allWidgets s, b = id := wf_all_eq_layouts hwf hall
  have hcyc : cycleContacts true false s = s := cycle_alone hwf ha hallW
  have hgr : s.groups.erase id = [] :=
    erase_all_eq_nil (wf_layout_nodup hwf .groups)
      (fun b hb => hallW b (mem_allWidgets_of_layout (show b ∈ layoutOf s LayoutKind.groups from hb)))
  have honot : id ∉ s.online := by
    intro h
    exact wf_disjoint hwf (show LayoutKind.groups ≠ LayoutKind.online by decide)
      (show id ∈ layoutOf s LayoutKind.groups from hmem)
      (show id ∈ layoutOf s LayoutKind.online from h)
  have hfnot : id ∉ s.offline := by
    intro h
    exact wf_disjoint hwf (show LayoutKind.groups ≠ LayoutKind.offline by decide)
      (show id ∈ layoutOf s LayoutKind.groups from hmem)
      (show id ∈ layoutOf s LayoutKind.offline from h)
  have ho : s.online = [] :=
    eq_nil_of_all_eq_not_mem
      (fun b hb => hallW b (mem_allWidgets_of_layout (show b ∈ layoutOf s LayoutKind.online from hb))) honot
  have hf : s.offline = [] :=
    eq_nil_of_all_eq_not_mem
      (fun b hb => hallW b (mem_allWidgets_of_layout (show b ∈ layoutOf s LayoutKind.offline from hb))) hfnot
  have hc : s.contactWidgets.erase id = [] := erase_all_eq_nil hwf.2.1 hall
  have hkey : removeGroup id s =
      ({ online := s.online, offline := s.offline, groups := [],
         contactWidgets := [], active := none,
         groupsOnTop := s.groupsOnTop }, true) := by
    simp only [removeGroup, if_pos ha, hcyc, chatroomCount, hgr, hc]
    rw [if_pos (by rw [ho, hf]; rfl)]
    simp [hc]
  rw [hkey]
  exact ⟨rfl, rfl⟩

theorem removeFriend_contacts (id : Nat) (s : DialogState) :
    (removeFriend id s).1.contactWidgets = s.contactWidgets.erase id ∧
    (removeFriend id s).2 = (s.contactWidgets.erase id).isEmpty := by
  simp only [removeFriend]
  split <;> split <;> simp [cycle_contacts_eq]

theorem removeGroup_contacts (id : Nat) (s : DialogState) :
    (removeGroup id s).1.contactWidgets = s.contactWidgets.erase id ∧
    (removeGroup id s).2 = (s.contactWidgets.erase id).isEmpty := by
  simp only [removeGroup]
  split <;> split <;> simp [cycle_contacts_eq]

theorem memB_append {x : Nat} {l1 l2 : List Nat} :
    memB x (l1 ++ l2) = (memB x l1 || memB x l2) := by
  induction l1 with
  | nil => simp [memB]
  | cons y ys ih =>
    show (if y = x then true else memB x (ys ++ l2)) =
      ((if y = x then true else memB x ys) || memB x l2)
    by_cases h : y = x
    · rw [if_pos h, if_pos h]
      rfl
    · rw [if_neg h, if_neg h, ih]

theorem insertNew_memB (x i : Nat) (l : List Nat) :
    memB i (insertNew x l) = if x = i then true else memB i l := by
  by_cases hxi : x = i
  · subst hxi
    rw [if_pos rfl]
    unfold insertNew
    by_cases hm : memB x l = true
    · rw [if_pos hm]
      exact hm
    · rw [if_neg hm, memB_append]
      have hx : memB x [x] = true := by
        show (if x = x then true else memB x []) = true
        rw [if_pos rfl]
      rw [hx, Bool.or_true]
  · rw [if_neg hxi]
    unfold insertNew
    by_cases hm : memB x l = true
    · rw [if_pos hm]
    · rw [if_neg hm, memB_append]
      have hx : memB i [x] = false := by
        show (if x = i then true else memB i []) = false
        rw [if_neg hxi]
        rfl
      rw [hx, Bool.or_false]

theorem erase_memB {i x : Nat} {l : List Nat} (nd : l.Nodup) :
    memB i (l.erase x) = if x = i then false else memB i l := by
  by_cases hxi : x = i
  · subst hxi
    rw [if_pos rfl]
    exact memB_eq_false_iff.mpr nd.not_mem_erase
  · rw [if_neg hxi]
    apply bool_ext
    rw [memB_iff, memB_iff]
    exact List.mem_erase_of_ne (fun he => hxi he.symm)

theorem addFriend_contacts (pk : Nat) (st : Bool) (s : DialogState) :
    (addFriend pk st s).contactWidgets = insertNew pk s.contactWidgets := by
  unfold addFriend friendLayoutAddWidget activate
  repeat' (first | split | dsimp only)

theorem addGroup_contacts (gid : Nat) (s : DialogState) :
    (addGroup gid s).contactWidgets = insertNew gid s.contactWidgets := by
  unfold addGroup activate
  repeat' (first | split | dsimp only)

theorem insertNew_nodup (x : Nat) {l : List Nat} (nd : l.Nodup) :
    (insertNew x l).Nodup := by
  unfold insertNew
  by_cases h : memB x l = true
  · rw [if_pos h]
    exact nd
  · rw [if_neg h]
    rw [List.nodup_append]
    refine ⟨nd, List.nodup_singleton x, ?_⟩
    intro a ha hax
    rcases List.mem_singleton.mp hax with rfl
    exact memB_eq_false_iff.mp (Bool.eq_false_iff.mpr h) ha

theorem applyOp_nodup (s : DialogState) (nd : s.contactWidgets.Nodup) (op : DialogOp) :
    (applyOp s op).contactWidgets.Nodup := by
  cases op with
  | addF pk st =>
    rw [show applyOp s (DialogOp.addF pk st) = addFriend pk st s from rfl,
      addFriend_contacts]
    exact insertNew_nodup pk nd
  | addG g =>
    rw [show applyOp s (DialogOp.addG g) = addGroup g s from rfl, addGroup_contacts]
    exact insertNew_nodup g nd
  | rmF pk =>
    rw [show applyOp s (DialogOp.rmF pk) = (removeFriend pk s).1 from rfl,
      (removeFriend_contacts pk s).1]
    exact List.Nodup.erase pk nd
  | rmG g =>
    rw [show applyOp s (DialogOp.rmG g) = (removeGroup g s).1 from rfl,
      (removeGroup_contacts g s).1]
    exact List.Nodup.erase g nd

theorem applyOp_memB (s : DialogState) (nd : s.contactWidgets.Nodup) (op : DialogOp)
    (i : Nat) :
    memB i (applyOp s op).contactWidgets =
      if opId op = i then isAdd op else memB i s.contactWidgets := by
  cases op with
  | addF pk st =>
    rw [show applyOp s (DialogOp.addF pk st) = addFriend pk st s from rfl,
      addFriend_contacts, insertNew_memB]
    rfl
  | addG g =>
    rw [show applyOp s (DialogOp.addG g) = addGroup g s from rfl, addGroup_contacts,
      insertNew_memB]
    rfl
  | rmF pk =>
    rw [show applyOp s (DialogOp.rmF pk) = (removeFriend pk s).1 from rfl,
      (removeFriend_contacts pk s).1, erase_memB nd]
    rfl
  | rmG g =>
    rw [show applyOp s (DialogOp.rmG g) = (removeGroup g s).1 from rfl,
      (removeGroup_contacts g s).1, erase_memB nd]
    rfl

theorem applyOps_memB (ops : List DialogOp) :
    ∀ (s : DialogState), s.contactWidgets.Nodup → ∀ i,
      memB i (applyOps s ops).contactWidgets =
        netFrom (memB i s.contactWidgets) ops i := by
  induction ops with
  | nil =>
    intro s _ i
    rfl
  | cons op rest ih =>
    intro s nd i
    have h1 : applyOps s (op :: rest) = applyOps (applyOp s op) rest := rfl
    have h2 : netFrom (memB i s.contactWidgets) (op :: rest) i =
        netFrom (if opId op = i then isAdd op else memB i s.contactWidgets) rest i := rfl
    rw [h1, h2, ih (applyOp s op) (applyOp_nodup s nd op) i, applyOp_memB s nd op i]

/-! ## Claim theorems -/

/-- C1 counterexample: in the spec's scenario (A online, B offline, G group,
groupsOnTop false, A active) the third forward cycleContacts call activates
G again, not A: the offline grouping is last in the ring, so the call made
from B flips direction and walks backward onto the group. -/
theorem C1_counterexample :
    (cycleContacts true false stateABG).active = some 3 ∧
    (cycleContacts true false (cycleContacts true false stateABG)).active = some 2 ∧
    (cycleContacts true false (cycleContacts true false
      (cycleContacts true false stateABG))).active = some 3 ∧
    (cycleContacts true false (cycleContacts true false
      (cycleContacts true false stateABG))).active ≠ some 1 := by
  decide

/-- C1 amended: with contacts A(=1, online), B(=2, offline), G(=3, group),
groupsOnTop false and A active, three successive forward cycleContacts
calls activate G, then B, then G again (the third call flips direction at
the last offline entry and lands on the group instead of wrapping to A). -/
theorem C1_theorem :
    (cycleContacts true false stateABG).active = some 3 ∧
    (cycleContacts true false (cycleContacts true false stateABG)).active = some 2 ∧
    (cycleContacts true false (cycleContacts true false
      (cycleContacts true false stateABG))).active = some 3 := by
  decide

/-- C2 counterexample: a state with 3 managed contacts, all three
groupings non-empty and an active contact, on which three forward
cycleContacts applications do not return the active contact to the
starting one. -/
theorem C2_counterexample :
    chatroomCount stateABG = 3 ∧ stateABG.online ≠ [] ∧ stateABG.groups ≠ [] ∧
    stateABG.offline ≠ [] ∧ stateABG.active = some 1 ∧
    ((cycleContacts true false)^[3] stateABG).active = some 3 ∧
    ((cycleContacts true false)^[3] stateABG).active ≠ stateABG.active := by
  decide

/-- C2 amended: cycleContacts never activates a contact that is not
currently managed — in any well-formed state, whatever contact is active
after a cycleContacts call is one of the managed contacts.  The second
half of the claim (forward cycling returns to the start after exactly N
steps) fails; see the counterexample. -/
theorem C2_theorem : ∀ (s : DialogState) (f i : Bool), WF s → ∀ w,
    (cycleContacts f i s).active = some w → w ∈ s.contactWidgets := by
  intro s f i hwf w hw
  exact cycle_active_managed hwf f i hw

theorem C2_witness : WF stateABG ∧ 3 ∈ stateABG.contactWidgets :=
  ⟨by decide, C2_theorem stateABG true false (by decide) 3 (by decide)⟩

/-- C3 counterexample: in a state where all three groupings are
non-empty and the active contact is last in the offline grouping, the
code flips the direction (codeFlip) although moving forward would land
on the non-empty first grouping of the ring, so the claim's flip
condition (claimFlip) is false; the call then activates the last group
entry 5 instead of keeping the given forward direction. -/
theorem C3_counterexample :
    codeFlip false stateRing = true ∧ claimFlip false stateRing = false ∧
    (cycleContacts true false stateRing).active = some 5 := by
  decide

/-- C3 amended: with inverse=false the direction is flipped exactly when
the active contact is at the last position of its grouping and every
grouping strictly after the current one in the display ring order is
empty; for the offline grouping, which is always last in the ring, this
holds vacuously, so the direction always flips at its last entry. -/
theorem C3_theorem : ∀ (s : DialogState) (inverse : Bool) (cur : LayoutKind) (idx : Nat),
    flipCond inverse cur idx s =
      (!inverse && (idx == (layoutOf s cur).length - 1) && subsequentEmpty s cur) := by
  intro s inverse cur idx
  rw [flipCond, nextIsEmpty_subsequent]

/-- C4: removing the currently active contact first selects a
replacement via cycleContacts(true, false), so afterwards either a
different still-managed contact is active and close does not fire (when
other contacts remain), or no contact is active and the dialog close is
triggered (when none remain); stated for removeFriend on friend entries
and removeGroup on group entries. -/
theorem C4_theorem : ∀ (s : DialogState) (id : Nat), WF s → s.active = some id →
    ((id ∈ s.online ∨ id ∈ s.offline) → removalPost id s (removeFriend id s)) ∧
    (id ∈ s.groups → removalPost id s (removeGroup id s)) := by
  intro s id hwf ha
  constructor
  · intro hmem
    constructor
    · intro hb
      exact removeFriend_active_replacement hwf ha hb
    · intro hall
      exact removeFriend_last hwf ha hmem hall
  · intro hmem
    constructor
    · intro hb
      exact removeGroup_active_replacement hwf ha hb
    · intro hall
      exact removeGroup_last hwf ha hmem hall

theorem C4_witness :
    WF stateABG ∧
    ∃ w, w ≠ 1 ∧ (removeFriend 1 stateABG).1.active = some w ∧
      w ∈ (removeFriend 1 stateABG).1.contactWidgets ∧ (removeFriend 1 stateABG).2 = false :=
  ⟨by decide, ((C4_theorem stateABG 1 (by decide) rfl).1 (Or.inl (by decide))).1 (by decide)⟩

/-- C5: the dialog-should-close signal fires on a removal exactly when
the removed contact was the last managed one: removeFriend/removeGroup
return the close flag as true iff every managed contact equals the
removed id. -/
theorem C5_theorem : ∀ (s : DialogState) (id : Nat), WF s →
    ((id ∈ s.online ∨ id ∈ s.offline) →
      ((removeFriend id s).2 = true ↔ ∀ b ∈ s.contactWidgets, b = id)) ∧
    (id ∈ s.groups →
      ((removeGroup id s).2 = true ↔ ∀ b ∈ s.contactWidgets, b = id)) := by
  intro s id hwf
  constructor
  · intro _
    rw [(removeFriend_contacts id s).2]
    exact erase_isEmpty_iff hwf.2.1
  · intro _
    rw [(removeGroup_contacts id s).2]
    exact erase_isEmpty_iff hwf.2.1

theorem C5_witness : WF stateSolo ∧ (removeFriend 7 stateSolo).2 = true :=
  ⟨by decide, ((C5_theorem stateSolo 7 (by decide)).1 (Or.inl (by decide))).mpr (by decide)⟩

/-- C6: the drop-acceptance check accepts a dragged, directory-resolved
contact id exactly when the id is not already among the contacts managed
by this dialog (hasContact is QHash::contains on contactWidgets). -/
theorem C6_theorem : ∀ (s : DialogState) (id : Nat),
    dragEnterAccept true id s = true ↔ id ∉ s.contactWidgets := by
  intro s id
  unfold dragEnterAccept hasContact
  constructor
  · intro h
    have h2 : memB id s.contactWidgets = false := by
      cases hb : memB id s.contactWidgets
      · rfl
      · rw [hb] at h
        simp at h
    exact memB_eq_false_iff.mp h2
  · intro h
    rw [memB_eq_false_iff.mpr h]
    rfl

/-- C7 counterexample: for the valid sequence add friend 1, remove
friend 1, add friend 1 again, the id 1 is managed afterwards although it
lies in both the set of added ids and the set of removed ids, so the
managed set is not the adds minus the removes. -/
theorem C7_counterexample :
    memB 1 (applyOps (emptyState false) opsReAdd).contactWidgets = true ∧
    memB 1 (addedIds opsReAdd) = true ∧
    memB 1 (removedIds opsReAdd) = true ∧
    opsValid (emptyState false) opsReAdd = true := by
  decide

/-- C7 amended: for every valid sequence of add/remove operations
starting from an empty dialog (adds of ids not currently present,
removals of currently managed ids of the matching kind), an id is
managed after the sequence iff the last add/remove operation naming it
is an add; the literal adds-minus-removes formula holds only when no
removed id is added again. -/
theorem C7_theorem : ∀ (ops : List DialogOp) (g : Bool),
    opsValid (emptyState g) ops = true →
    ∀ i, memB i (applyOps (emptyState g) ops).contactWidgets = netAdded ops i := by
  intro ops g _ i
  have h := applyOps_memB ops (emptyState g) List.nodup_nil i
  rw [h]
  rfl

theorem C7_witness :
    opsValid (emptyState false) opsMix = true ∧
    memB 2 (applyOps (emptyState false) opsMix).contactWidgets = netAdded opsMix 2 :=
  ⟨by decide, C7_theorem opsMix false (by decide) 2⟩

/-- C8: a focus request and a friend-status update for a contact id that
is not managed by the dialog leave the controller state unchanged. -/
theorem C8_theorem : ∀ (s : DialogState) (id : Nat) (st : Bool),
    memB id s.contactWidgets = false →
    focusContact id s = s ∧ updateFriendStatus id st s = s := by
  intro s id st h
  constructor
  · unfold focusContact
    rw [h]
    rfl
  · unfold updateFriendStatus
    rw [h]
    rfl

theorem C8_witness :
    memB 9 stateABG.contactWidgets = false ∧
    focusContact 9 stateABG = stateABG ∧ updateFriendStatus 9 true stateABG = stateABG :=
  ⟨by decide, (C8_theorem stateABG 9 true (by decide)).1,
    (C8_theorem stateABG 9 true (by decide)).2⟩

/-- C9: immediately after addFriend or addGroup returns, the newly added
contact is the active contact of the dialog (the emitted
chatroomWidgetClicked signal activates the inserted widget). -/
theorem C9_theorem : ∀ (s : DialogState) (pk : Nat) (st : Bool) (gid : Nat),
    (addFriend pk st s).active = some pk ∧ (addGroup gid s).active = some gid := by
  intro s pk st gid
  constructor
  · unfold addFriend friendLayoutAddWidget activate
    repeat' (first | split | dsimp only)
    all_goals assumption
  · unfold addGroup activate
    repeat' (first | split | dsimp only)
    all_goals assumption

/-- C10: when no active contact is set, or the active widget is found in
none of the three grouping layouts, cycleContacts leaves the whole
controller state unchanged. -/
theorem C10_theorem : ∀ (s : DialogState) (f i : Bool),
    s.active = none ∨ getCurrentLayout s = none → cycleContacts f i s = s := by
  intro s f i h
  have hgl : getCurrentLayout s = none := by
    rcases h with h | h
    · exact getCurrentLayout_none_of_no_active h
    · exact h
  unfold cycleContacts
  rw [hgl]

theorem C10_witness :
    stateIdle.active = none ∧ cycleContacts true false stateIdle = stateIdle :=
  ⟨rfl, C10_theorem stateIdle true false (Or.inl rfl)⟩

end ContentDialog
